import Mathlib

/-!
Verification development for the sedifex-stores geocode-resolution and
pin-clustering pipeline.

The embedding models JavaScript numbers by exact rationals (`ℚ`): every
arithmetic step the embedded functions perform (addition, division by a
positive count, min/max) is exact at the granularity the specification
speaks about.  The one derived encoding: for a nonnegative right-hand side,
`Math.hypot dx dy <= t` holds exactly when `0 ≤ t ∧ dx^2 + dy^2 ≤ t^2`,
which is how the threshold test is expressed below.

External effects are parameters:
* `pf : String → Option ℚ` models `Number.parseFloat` composed with the
  `Number.isFinite` guard the source applies right after parsing
  (`none` = the parse is not a finite number);
* `fetch : String → FetchOutcome` models one round-trip to the geocoding
  service for a query string (non-OK response, thrown error, or a parsed
  JSON candidate array).
-/

namespace SedifexStores

/-! ### Firestore document values (route handler `src/unnamed/part_006`) -/

/-- A Firestore field value as far as `toNumber`/`toNullableString` inspect
it: a finite number, a non-finite number (`NaN`/`±Infinity`), a string, or
anything else (`null`, `undefined`, objects, booleans, …). -/
inductive JsValue where
  | num (q : ℚ)
  | nanNum
  | str (s : String)
  | other
deriving DecidableEq, Repr

/-- Drop leading whitespace characters from a character list. -/
def dropLeadingWhitespace : List Char → List Char
  | [] => []
  | c :: cs => if c.isWhitespace then dropLeadingWhitespace cs else c :: cs

/-- JavaScript `String.prototype.trim`: strip whitespace from both ends
(structural model, so that it evaluates inside the kernel). -/
def jsTrim (s : String) : String :=
  ⟨dropLeadingWhitespace (dropLeadingWhitespace s.data.reverse).reverse⟩

/-- `toNumber` from the route handler: a finite number is kept, a string is
parsed with `Number.parseFloat` and kept when finite, everything else is
`null`. -/
def toNumber (pf : String → Option ℚ) : JsValue → Option ℚ
  | .num q => some q
  | .nanNum => none
  | .str s => pf s
  | .other => none

/-- `toNullableString` from the route handler: a string whose trim is
non-empty is returned trimmed; everything else is `null`. -/
def toNullableString : JsValue → Option String
  | .str s => if jsTrim s ≠ "" then some (jsTrim s) else none
  | _ => none

/-! ### Geocoding (`geocodeAddress` in the route handler) -/

/-- A Nominatim candidate as the route handler reads it: optional `lat` and
`lon` string fields. -/
structure Candidate where
  lat : Option String
  lon : Option String
deriving DecidableEq, Repr

/-- Outcome of one `fetch` of the geocoding URL: the call threw (network
error), the response was not OK, or a JSON candidate array was obtained. -/
inductive FetchOutcome where
  | networkError
  | notOk
  | ok (results : List Candidate)
deriving DecidableEq, Repr

structure GeocodeResult where
  latitude : ℚ
  longitude : ℚ
deriving DecidableEq, Repr

/-- The in-process `geocodeCache : Map<string, GeocodeResult>`, as an
insertion-ordered association list. -/
abbrev Cache := List (String × GeocodeResult)

/-- `Map.get` (with `Map.has` folded in): the value bound to `a`, if any. -/
def cacheGet? : Cache → String → Option GeocodeResult
  | [], _ => none
  | (k, v) :: rest, a => if k = a then some v else cacheGet? rest a

/-- `Map.set`: overwrite an existing binding in place, else append. -/
def cacheSet : Cache → String → GeocodeResult → Cache
  | [], a, r => [(a, r)]
  | (k, v) :: rest, a, r =>
    if k = a then (a, r) :: rest else (k, v) :: cacheSet rest a r

/-- The early-return chain of `geocodeAddress` after the fetch: `null` on
`!response.ok` or a thrown error; `const [first] = results` with
`!first?.lat || !first.lon` → `null` (missing candidate, missing field, or
empty string are all falsy); `Number.parseFloat` on both fields with
`Number.isFinite` guards → the coordinate pair on success, else `null`. -/
def lookupResult (pf : String → Option ℚ) : FetchOutcome → Option GeocodeResult
  | .networkError => none
  | .notOk => none
  | .ok results =>
    match results.head? with
    | none => none
    | some first =>
      match first.lat, first.lon with
      | some la, some lo =>
        if la = "" ∨ lo = "" then none
        else
          match pf la, pf lo with
          | some latitude, some longitude => some ⟨latitude, longitude⟩
          | some _, none => none
          | none, _ => none
      | some _, none => none
      | none, _ => none

/-- `geocodeAddress` from the route handler.  Returns the result, the cache
after the call, and how many times the external service was contacted
during the call (0 or 1): a cache hit returns the cached value with no
fetch; otherwise one fetch is made and its outcome runs through
`lookupResult`, with the cache populated exactly on success. -/
def geocodeAddress (pf : String → Option ℚ) (fetch : String → FetchOutcome)
    (cache : Cache) (address : String) : Option GeocodeResult × Cache × Nat :=
  match cacheGet? cache address with
  | some r => (some r, cache, 0)
  | none =>
    match lookupResult pf (fetch address) with
    | some coordinates =>
      (some coordinates, cacheSet cache address coordinates, 1)
    | none => (none, cache, 1)

/-- Run a sequence of geocode calls (each with its own view of the external
service, since responses may change over time), threading the cache;
returns the final cache. -/
def geocodeFold (pf : String → Option ℚ)
    (calls : List ((String → FetchOutcome) × String)) (cache : Cache) : Cache :=
  calls.foldl (fun c fb => (geocodeAddress pf fb.1 c fb.2).2.1) cache

/-! ### Per-record resolution (the `GET` loop body in the route handler) -/

/-- A `stores` document as the route handler reads it (fields the handler
does not touch are omitted). -/
structure RawStore where
  id : String
  addressLine1 : JsValue
  city : JsValue
  region : JsValue
  country : JsValue
  latitude : JsValue
  longitude : JsValue
deriving DecidableEq, Repr

/-- The address the `GET` handler builds for a document: the four trimmed
non-empty address fields, in fixed order, joined by `", "`. -/
def buildAddress (r : RawStore) : String :=
  String.intercalate ", "
    (([r.addressLine1, r.city, r.region, r.country].map
      toNullableString).filterMap id)

/-- One iteration of the `GET` loop: convert the persisted coordinates; if
either is missing and the built address is truthy (non-empty), geocode the
address and, on success, take the geocoded pair.  Returns the coordinate
pair pushed for the record, the cache after the step, and the number of
external service calls made.  (The best-effort `updateDoc` write-back has
no bearing on any returned value and is not modelled.) -/
def resolveStoreRecord (pf : String → Option ℚ) (fetch : String → FetchOutcome)
    (cache : Cache) (r : RawStore) : (Option ℚ × Option ℚ) × Cache × Nat :=
  let address := buildAddress r
  let latitude := toNumber pf r.latitude
  let longitude := toNumber pf r.longitude
  if (latitude.isNone || longitude.isNone) && (address != "") then
    match geocodeAddress pf fetch cache address with
    | (some g, c, n) => ((some g.latitude, some g.longitude), c, n)
    | (none, c, n) => ((latitude, longitude), c, n)
  else
    ((latitude, longitude), cache, 0)

/-! ### Client-side map pipeline (`src/src/app/StoresPage.tsx`) -/

/-- A JavaScript `number | null` field as `hasCoordinates` inspects it. -/
inductive JsNum where
  | jsNull
  | finite (q : ℚ)
  | nonFinite
deriving DecidableEq, Repr

/-- The value of a finite `JsNum` (the `as number` cast applied after
`hasCoordinates` has established finiteness). -/
def JsNum.toQ : JsNum → ℚ
  | .finite q => q
  | _ => 0

/-- A client-side store record, restricted to the fields the map pipeline
(`formatLocation`, `hasCoordinates`, `StoreMap`, `clusterPins`) reads:
identity, the structured address fields, and the coordinate pair.  String
fields are `null` or a string; coordinates are `null`, a finite number, or
a non-finite number. -/
structure StoreRecord where
  id : String
  addressLine1 : Option String
  city : Option String
  region : Option String
  country : Option String
  latitude : JsNum
  longitude : JsNum
deriving DecidableEq, Repr

/-- `formatLocation`: the truthy (non-null, non-empty-string) address
parts in fixed order, joined by `", "`. -/
def formatLocation (s : StoreRecord) : String :=
  String.intercalate ", "
    ((([s.addressLine1, s.city, s.region, s.country]).filterMap id).filter
      (fun v => v != ""))

/-- A client record field that is `null` or the empty string (falsy). -/
def emptyOrMissing : Option String → Bool
  | none => true
  | some v => v == ""

/-- All four address fields of a record are empty or missing. -/
def locationEmpty (s : StoreRecord) : Bool :=
  emptyOrMissing s.addressLine1 && emptyOrMissing s.city &&
    emptyOrMissing s.region && emptyOrMissing s.country

/-- `hasCoordinates`: both coordinates are numbers and finite. -/
def hasCoordinates (s : StoreRecord) : Bool :=
  (match s.latitude with | .finite _ => true | _ => false) &&
  (match s.longitude with | .finite _ => true | _ => false)

/-- `clamp` inside `projectCoordinates`. -/
def clamp (v : ℚ) : ℚ := min 97 (max 3 v)

/-- `projectCoordinates`: equirectangular projection into 0–100% space,
clamped to `[3, 97]` on each axis. -/
def projectCoordinates (latitude longitude : ℚ) : ℚ × ℚ :=
  (clamp (((longitude + 180) / 360) * 100), clamp (((90 - latitude) / 180) * 100))

/-- The `ProjectedPin` shape handed to `clusterPins`. -/
structure ProjectedPin where
  store : StoreRecord
  location : String
  x : ℚ
  y : ℚ
deriving DecidableEq, Repr

/-- A cluster as `clusterPins` builds it. -/
structure Cluster where
  id : String
  x : ℚ
  y : ℚ
  pins : List ProjectedPin
deriving DecidableEq, Repr

/-- The `clusters.find` predicate: `Math.hypot (cluster.x - pin.x)
(cluster.y - pin.y) <= threshold`, encoded without the square root
(`hypot d₁ d₂ ≤ t ↔ 0 ≤ t ∧ d₁² + d₂² ≤ t²`). -/
def withinThreshold (c : Cluster) (pin : ProjectedPin) (threshold : ℚ) : Bool :=
  decide (0 ≤ threshold) &&
    decide ((c.x - pin.x) ^ 2 + (c.y - pin.y) ^ 2 ≤ threshold ^ 2)

/-- Merging a pin into an existing cluster: running-mean centroid update
and append to the member list. -/
def mergePin (c : Cluster) (pin : ProjectedPin) : Cluster :=
  let count : ℚ := c.pins.length
  { c with
      x := (c.x * count + pin.x) / (count + 1),
      y := (c.y * count + pin.y) / (count + 1),
      pins := c.pins ++ [pin] }

/-- `clusters.find` plus the in-place update: `some` when a cluster within
the threshold exists (the first one, updated), `none` when no cluster
matches. -/
def updateFirstCluster (threshold : ℚ) (pin : ProjectedPin) :
    List Cluster → Option (List Cluster)
  | [] => none
  | c :: rest =>
    if withinThreshold c pin threshold then some (mergePin c pin :: rest)
    else (updateFirstCluster threshold pin rest).map (c :: ·)

/-- One iteration of the `pins.forEach` body: merge into the first matching
cluster, else push a fresh singleton cluster (its id built from the current
cluster count and the pin's store id). -/
def addPin (threshold : ℚ) (clusters : List Cluster) (pin : ProjectedPin) :
    List Cluster :=
  match updateFirstCluster threshold pin clusters with
  | some updated => updated
  | none =>
    clusters ++
      [{ id := "cluster-" ++ toString clusters.length ++ "-" ++ pin.store.id,
         x := pin.x, y := pin.y, pins := [pin] }]

/-- `clusterPins`: fold the pins, in input order, into the growing cluster
list (threshold defaults to 4). -/
def clusterPins (pins : List ProjectedPin) (threshold : ℚ := 4) : List Cluster :=
  pins.foldl (addPin threshold) []

/-- The pin list `StoreMap` builds: pair each store with its formatted
location, keep entries whose location is truthy and whose store has finite
coordinates, then project the coordinates. -/
def storeMapPins (stores : List StoreRecord) : List ProjectedPin :=
  ((stores.map (fun s => (s, formatLocation s))).filter
      (fun e => (e.2 != "") && hasCoordinates e.1)).map
    (fun e =>
      { store := e.1, location := e.2,
        x := (projectCoordinates e.1.latitude.toQ e.1.longitude.toQ).1,
        y := (projectCoordinates e.1.latitude.toQ e.1.longitude.toQ).2 })

/-- The cluster list `StoreMap` renders (default threshold). -/
def storeMapClusters (stores : List StoreRecord) : List Cluster :=
  clusterPins (storeMapPins stores)

/-! ### Spec-side clustering model

A second clustering definition following the specification's words (§4.4),
to be compared with `clusterPins` above: "scan existing clusters in
creation order and find the first cluster whose centroid is within
Euclidean `threshold` of the point; if found, merge the point into that
cluster — update the centroid via
`new_centroid = (old_centroid * old_count + point) / (old_count + 1)` and
append the point to the member list; if no such cluster exists, create a
new singleton cluster at the point's coordinates; output order is
cluster-creation order."  The spec does not speak of cluster ids, so its
clusters carry only a centroid and a member list. -/

structure SpecCluster where
  cx : ℚ
  cy : ℚ
  members : List ProjectedPin
deriving DecidableEq, Repr

instance : Inhabited SpecCluster := ⟨⟨0, 0, []⟩⟩

/-- The spec's distance test: the point is within Euclidean `threshold` of
the centroid (same square-root-free encoding as `withinThreshold`). -/
def specWithin (c : SpecCluster) (p : ProjectedPin) (threshold : ℚ) : Bool :=
  decide (0 ≤ threshold) &&
    decide ((c.cx - p.x) ^ 2 + (c.cy - p.y) ^ 2 ≤ threshold ^ 2)

/-- The spec's merge: running-mean centroid update, append to members. -/
def specMerge (c : SpecCluster) (p : ProjectedPin) : SpecCluster :=
  { cx := (c.cx * c.members.length + p.x) / ((c.members.length : ℚ) + 1),
    cy := (c.cy * c.members.length + p.y) / ((c.members.length : ℚ) + 1),
    members := c.members ++ [p] }

/-- Index of the first cluster, in creation order, within the threshold. -/
def specFirstMatch (threshold : ℚ) (p : ProjectedPin) :
    List SpecCluster → Option Nat
  | [] => none
  | c :: rest =>
    if specWithin c p threshold then some 0
    else (specFirstMatch threshold p rest).map (· + 1)

/-- One point of the spec's single forward pass. -/
def specStep (threshold : ℚ) (cs : List SpecCluster) (p : ProjectedPin) :
    List SpecCluster :=
  match specFirstMatch threshold p cs with
  | some i => cs.set i (specMerge (cs.getD i default) p)
  | none => cs ++ [⟨p.x, p.y, [p]⟩]

/-- The spec's clusterer: fold the points, in input order (threshold
defaults to 4). -/
def specClusterPins (pins : List ProjectedPin) (threshold : ℚ := 4) :
    List SpecCluster :=
  pins.foldl (specStep threshold) []

/-- Forget the id of an implementation cluster. -/
def Cluster.toSpec (c : Cluster) : SpecCluster := ⟨c.x, c.y, c.pins⟩

/-! ### Spec-side address normalizer model

A second normalizer definition following the specification's words (§4.1),
to be compared with `buildAddress` above: "concatenates, in fixed order,
the non-empty/non-whitespace values of {addressLine1, city, region,
country}, joined by `", "`".  It keeps a field exactly when it is a string
whose trim is non-empty, and writes the separator only between two kept
values. -/

/-- Keep a field's trimmed value in front of the later parts exactly when
the field is a string that is non-empty after trimming. -/
def specKeepField (v : JsValue) (rest : List String) : List String :=
  match v with
  | .str s => if jsTrim s ≠ "" then jsTrim s :: rest else rest
  | _ => rest

/-- The values the spec retains, in the fixed field order. -/
def specAddressParts (r : RawStore) : List String :=
  specKeepField r.addressLine1 (specKeepField r.city
    (specKeepField r.region (specKeepField r.country [])))

/-- Join a list of parts with `", "` written only between two parts. -/
def specJoinComma : List String → String
  | [] => ""
  | [x] => x
  | x :: xs => x ++ ", " ++ specJoinComma xs

/-! ### Concrete sample data (used to exercise the theorems) -/

/-- A parse function that reads the string `"10"` as the number 10. -/
def wParse : String → Option ℚ := fun s => if s = "10" then some 10 else none

/-- A service view answering every query with one candidate at (10, 10). -/
def wFetchOk : String → FetchOutcome :=
  fun _ => FetchOutcome.ok [⟨some "10", some "10"⟩]

/-- A service view answering every query with a non-OK response. -/
def wFetchNotOk : String → FetchOutcome := fun _ => FetchOutcome.notOk

/-- A document with persisted finite coordinates and an address. -/
def wRawPersisted : RawStore :=
  ⟨"r1", .str "12 Main St", .str "Accra", .other, .str "Ghana", .num 5, .num 6⟩

/-- A document with no usable address field and no usable coordinates. -/
def wRawNoAddress : RawStore :=
  ⟨"r2", .other, .str "   ", .nanNum, .other, .other, .str "oops"⟩

/-- A document with all four address fields present (some padded). -/
def wRawFull : RawStore :=
  ⟨"r3", .str " 12 Main St ", .str "Accra", .str " Greater Accra ",
    .str "Ghana", .other, .other⟩

/-- A client record with finite coordinates but no location fields. -/
def wStoreNoLocation : StoreRecord :=
  ⟨"s0", none, some "", none, none, .finite 10, .finite 20⟩

/-- Client records for the three-point clustering example. -/
def wStoreA : StoreRecord := ⟨"s1", some "A St", none, none, none, .finite 10, .finite 10⟩

def wStoreB : StoreRecord := ⟨"s2", some "B St", none, none, none, .finite 11, .finite 11⟩

def wStoreC : StoreRecord := ⟨"s3", some "C St", none, none, none, .finite 50, .finite 50⟩

/-- The three pins at (10,10), (11,11), (50,50). -/
def wPinA : ProjectedPin := ⟨wStoreA, "A St", 10, 10⟩

def wPinB : ProjectedPin := ⟨wStoreB, "B St", 11, 11⟩

def wPinC : ProjectedPin := ⟨wStoreC, "C St", 50, 50⟩

end SedifexStores

/-! ## Theorems -/

namespace SedifexStores

/-- A fresh binding is found. -/
theorem cacheGet?_cacheSet_self (c : Cache) (a : String) (r : GeocodeResult) :
    cacheGet? (cacheSet c a r) a = some r := by
  induction c with
  | nil => simp [cacheSet, cacheGet?]
  | cons kv rest ih =>
    obtain ⟨k, v⟩ := kv
    by_cases h : k = a
    · simp [cacheSet, h, cacheGet?]
    · simp [cacheSet, h, cacheGet?, ih]

/-- Setting one key leaves the other keys' bindings alone. -/
theorem cacheGet?_cacheSet_ne (c : Cache) {a b : String} (r : GeocodeResult)
    (hne : b ≠ a) : cacheGet? (cacheSet c b r) a = cacheGet? c a := by
  induction c with
  | nil => simp [cacheSet, cacheGet?, hne]
  | cons kv rest ih =>
    obtain ⟨k, v⟩ := kv
    by_cases h : k = b
    · subst h
      simp [cacheSet, cacheGet?, hne, Ne.symm hne]
    · by_cases h' : k = a <;>
        simp [cacheSet, cacheGet?, h, h', ih, Ne.symm hne]

/-- A cache hit answers from the cache: same result, unchanged cache, no
external call. -/
theorem geocodeAddress_hit (pf : String → Option ℚ) (f : String → FetchOutcome)
    (c : Cache) (a : String) (r : GeocodeResult) (h : cacheGet? c a = some r) :
    geocodeAddress pf f c a = (some r, c, 0) := by
  unfold geocodeAddress
  rw [h]

/-- On a cache miss the call contacts the service exactly once and either
fails with the cache untouched, or succeeds and records the result. -/
theorem geocodeAddress_miss_cases (pf : String → Option ℚ)
    (f : String → FetchOutcome) (c : Cache) (a : String)
    (h : cacheGet? c a = none) :
    geocodeAddress pf f c a = (none, c, 1) ∨
      ∃ r, geocodeAddress pf f c a = (some r, cacheSet c a r, 1) := by
  unfold geocodeAddress
  rw [h]
  rcases hr : lookupResult pf (f a) with _ | coords
  · exact Or.inl rfl
  · exact Or.inr ⟨coords, rfl⟩

/-- A successful call leaves the result bound to the address in the cache
it returns. -/
theorem geocodeAddress_success_cached (pf : String → Option ℚ)
    (f : String → FetchOutcome) (c : Cache) (a : String) (r : GeocodeResult)
    (h : (geocodeAddress pf f c a).1 = some r) :
    cacheGet? (geocodeAddress pf f c a).2.1 a = some r := by
  rcases hc : cacheGet? c a with _ | r'
  · rcases geocodeAddress_miss_cases pf f c a hc with hmiss | ⟨s, hsucc⟩
    · rw [hmiss] at h
      exact absurd h (by simp)
    · rw [hsucc] at h ⊢
      have hs : s = r := by simpa using h
      rw [hs] at hsucc ⊢
      exact cacheGet?_cacheSet_self c a r
  · rw [geocodeAddress_hit pf f c a r' hc] at h ⊢
    have hs : r' = r := by simpa using h
    rw [hs] at hc ⊢
    exact hc

/-- No call disturbs an existing binding. -/
theorem geocodeAddress_preserves (pf : String → Option ℚ)
    (f : String → FetchOutcome) (c : Cache) (a b : String) (r : GeocodeResult)
    (h : cacheGet? c a = some r) :
    cacheGet? (geocodeAddress pf f c b).2.1 a = some r := by
  rcases hb : cacheGet? c b with _ | r'
  · rcases geocodeAddress_miss_cases pf f c b hb with hmiss | ⟨s, hsucc⟩
    · rw [hmiss]
      exact h
    · rw [hsucc]
      have hne : b ≠ a := fun hba => by rw [hba, h] at hb; exact Option.noConfusion hb
      rw [cacheGet?_cacheSet_ne c s hne]
      exact h
  · rw [geocodeAddress_hit pf f c b r' hb]
    exact h

/-- No sequence of calls disturbs an existing binding. -/
theorem geocodeFold_preserves (pf : String → Option ℚ)
    (calls : List ((String → FetchOutcome) × String)) (c : Cache) (a : String)
    (r : GeocodeResult) (h : cacheGet? c a = some r) :
    cacheGet? (geocodeFold pf calls c) a = some r := by
  induction calls generalizing c with
  | nil => exact h
  | cons fb rest ih =>
    exact ih _ (geocodeAddress_preserves pf fb.1 c a fb.2 r h)

/-- Claim C1: after a successful resolution of an address, every later
resolution of the same address — whatever calls for other addresses come in
between, and whatever the external service would now answer — is served
from the in-process cache: it returns the same result, leaves the cache
unchanged, and makes no external request. -/
theorem c1_repeat_resolution_is_cache_hit (pf : String → Option ℚ)
    (f g : String → FetchOutcome) (c : Cache) (a : String)
    (mid : List ((String → FetchOutcome) × String)) (r : GeocodeResult)
    (h : (geocodeAddress pf f c a).1 = some r) :
    geocodeAddress pf g (geocodeFold pf mid (geocodeAddress pf f c a).2.1) a
      = (some r, geocodeFold pf mid (geocodeAddress pf f c a).2.1, 0) := by
  have h1 := geocodeAddress_success_cached pf f c a r h
  have h2 := geocodeFold_preserves pf mid _ a r h1
  exact geocodeAddress_hit pf g _ a r h2

/-- Claim C1 exercised: address "A" resolves successfully to (10, 10);
after an intervening failing call for "B", resolving "A" again (now against
a service that would fail) is a pure cache hit with zero external calls. -/
theorem c1_repeat_resolution_is_cache_hit_witness :
    geocodeAddress wParse wFetchNotOk
        (geocodeFold wParse [(wFetchNotOk, "B")]
          (geocodeAddress wParse wFetchOk [] "A").2.1) "A"
      = (some ⟨10, 10⟩,
          geocodeFold wParse [(wFetchNotOk, "B")]
            (geocodeAddress wParse wFetchOk [] "A").2.1, 0) :=
  c1_repeat_resolution_is_cache_hit wParse wFetchOk wFetchNotOk [] "A"
    [(wFetchNotOk, "B")] ⟨10, 10⟩ (by decide)

/-- Claim C2: a resolution call that fails (for any of the failure shapes:
network error, non-OK response, empty candidate list, missing or non-finite
coordinate fields) returns the cache unchanged — no negative caching — so a
subsequent resolution call for the same address contacts the external
service again (one further external call). -/
theorem c2_failure_not_cached_retries (pf : String → Option ℚ)
    (f f' : String → FetchOutcome) (c : Cache) (a : String)
    (h : (geocodeAddress pf f c a).1 = none) :
    (geocodeAddress pf f c a).2.1 = c ∧
      (geocodeAddress pf f' (geocodeAddress pf f c a).2.1 a).2.2 = 1 := by
  have hc : cacheGet? c a = none := by
    rcases hx : cacheGet? c a with _ | r'
    · rfl
    · rw [geocodeAddress_hit pf f c a r' hx] at h
      exact absurd h (by simp)
  rcases geocodeAddress_miss_cases pf f c a hc with hmiss | ⟨s, hsucc⟩
  · have hcache : (geocodeAddress pf f c a).2.1 = c := by rw [hmiss]
    refine ⟨hcache, ?_⟩
    rw [hcache]
    rcases geocodeAddress_miss_cases pf f' c a hc with hm2 | ⟨s2, hs2⟩
    · rw [hm2]
    · rw [hs2]
  · rw [hsucc] at h
    exact absurd h (by simp)

/-- Claim C2 exercised: a non-OK response for "A" yields `null`, the cache
stays empty, and a retry for "A" performs one more external call. -/
theorem c2_failure_not_cached_retries_witness :
    (geocodeAddress wParse wFetchNotOk [] "A").2.1 = [] ∧
      (geocodeAddress wParse wFetchOk
        (geocodeAddress wParse wFetchNotOk [] "A").2.1 "A").2.2 = 1 :=
  c2_failure_not_cached_retries wParse wFetchNotOk wFetchOk [] "A" (by decide)

/-- Claim C3: a record whose persisted latitude and longitude fields both
convert to finite numbers is resolved from those fields as-is: the
geocoding service is not contacted (zero external calls) and the cache is
untouched. -/
theorem c3_persisted_coordinates_skip_lookup (pf : String → Option ℚ)
    (fetch : String → FetchOutcome) (cache : Cache) (r : RawStore)
    (la lo : ℚ) (hla : toNumber pf r.latitude = some la)
    (hlo : toNumber pf r.longitude = some lo) :
    resolveStoreRecord pf fetch cache r = ((some la, some lo), cache, 0) := by
  simp [resolveStoreRecord, hla, hlo]

/-- Claim C3 exercised: a record persisted at (5, 6) resolves to (5, 6)
with no external call even though it has a non-empty address. -/
theorem c3_persisted_coordinates_skip_lookup_witness :
    resolveStoreRecord wParse wFetchOk [] wRawPersisted
      = ((some 5, some 6), [], 0) :=
  c3_persisted_coordinates_skip_lookup wParse wFetchOk [] wRawPersisted 5 6
    (by decide) (by decide)

/-- Claim C4: when the built address is falsy (the empty string, which is
what every record with no usable address field produces), the resolution
step attempts no external lookup, leaves the cache unchanged, and the
geocoder contributes nothing: the returned pair is exactly the conversion
of the persisted fields (hence `null` for each field that does not convert).
-/
theorem c4_falsy_address_no_lookup (pf : String → Option ℚ)
    (fetch : String → FetchOutcome) (cache : Cache) (r : RawStore)
    (h : buildAddress r = "") :
    resolveStoreRecord pf fetch cache r
      = ((toNumber pf r.latitude, toNumber pf r.longitude), cache, 0) := by
  simp [resolveStoreRecord, h]

/-- Claim C4 exercised: a record whose address fields are absent or
whitespace-only builds the empty address, and its resolution step returns
`null` coordinates with zero external calls. -/
theorem c4_falsy_address_no_lookup_witness :
    resolveStoreRecord wParse wFetchOk [] wRawNoAddress
      = ((none, none), [], 0) := by
  have h := c4_falsy_address_no_lookup wParse wFetchOk [] wRawNoAddress
    (by decide)
  simpa using h

/-- Claim C7: `projectCoordinates` computes `x = ((lon + 180) / 360) * 100`
and `y = ((90 - lat) / 180) * 100`, each clamped to `[3, 97]`; for every
valid latitude in `[-90, 90]` and longitude in `[-180, 180]` the output
lies within `[3, 97] × [3, 97]`. -/
theorem c7_projection_formula_and_bounds (lat lon : ℚ) :
    projectCoordinates lat lon
        = (clamp (((lon + 180) / 360) * 100), clamp (((90 - lat) / 180) * 100)) ∧
      (-90 ≤ lat → lat ≤ 90 → -180 ≤ lon → lon ≤ 180 →
        3 ≤ (projectCoordinates lat lon).1 ∧ (projectCoordinates lat lon).1 ≤ 97 ∧
          3 ≤ (projectCoordinates lat lon).2 ∧ (projectCoordinates lat lon).2 ≤ 97) := by
  have hclamp : ∀ v : ℚ, 3 ≤ clamp v ∧ clamp v ≤ 97 := fun v =>
    ⟨le_min (by norm_num) (le_max_left 3 v), min_le_left 97 (max 3 v)⟩
  exact ⟨rfl, fun _ _ _ _ =>
    ⟨(hclamp _).1, (hclamp _).2, (hclamp _).1, (hclamp _).2⟩⟩

/-- Claim C7 exercised at a pole on the antimeridian: the projected point
stays inside the padded canvas. -/
theorem c7_projection_formula_and_bounds_witness :
    3 ≤ (projectCoordinates 90 (-180)).1 ∧ (projectCoordinates 90 (-180)).1 ≤ 97 ∧
      3 ≤ (projectCoordinates 90 (-180)).2 ∧ (projectCoordinates 90 (-180)).2 ≤ 97 :=
  (c7_projection_formula_and_bounds 90 (-180)).2 (by decide) (by decide)
    (by decide) (by decide)

/-- Prepending a kept field is consing the trimmed value `toNullableString`
retains, and nothing otherwise. -/
theorem specKeepField_eq (v : JsValue) (rest : List String) :
    specKeepField v rest =
      match toNullableString v with
      | some t => t :: rest
      | none => rest := by
  cases v with
  | str s =>
    by_cases h : jsTrim s ≠ "" <;> simp [specKeepField, toNullableString, h]
  | num q => rfl
  | nanNum => rfl
  | other => rfl

/-- Every record — whichever mix of its address fields is present, empty,
whitespace-only or non-string — builds exactly the spec's address: the
retained trimmed values in fixed order, with `", "` only between two
retained values. -/
theorem buildAddress_eq_specJoin (r : RawStore) :
    buildAddress r = specJoinComma (specAddressParts r) := by
  unfold buildAddress specAddressParts
  rw [specKeepField_eq, specKeepField_eq, specKeepField_eq, specKeepField_eq]
  simp only [List.map_cons, List.map_nil]
  rcases toNullableString r.addressLine1 with _ | t1 <;>
    rcases toNullableString r.city with _ | t2 <;>
      rcases toNullableString r.region with _ | t3 <;>
        rcases toNullableString r.country with _ | t4 <;>
          simp [List.filterMap_cons, String.intercalate, String.intercalate.go,
            specJoinComma, String.append_assoc]

/-- Claim C8: the address normalizer is a pure, deterministic function of
the four structured fields.  For every record it concatenates, in the
fixed order addressLine1, city, region, country, exactly those values that
are non-empty after trimming, joined by `", "` (the spec-side
`specJoinComma ∘ specAddressParts`); two records with identical fields
build the same address; and when every field is empty, whitespace-only or
missing, the built address is the empty string and the resolution step
attempts no geocoding. -/
theorem c8_address_normalizer_spec :
    (∀ r : RawStore, buildAddress r = specJoinComma (specAddressParts r)) ∧
    (∀ r1 r2 : RawStore, r1.addressLine1 = r2.addressLine1 →
      r1.city = r2.city → r1.region = r2.region → r1.country = r2.country →
      buildAddress r1 = buildAddress r2) ∧
    (∀ r : RawStore, toNullableString r.addressLine1 = none →
      toNullableString r.city = none → toNullableString r.region = none →
      toNullableString r.country = none →
      buildAddress r = "" ∧
        ∀ pf fetch cache, (resolveStoreRecord pf fetch cache r).2.2 = 0) := by
  refine ⟨buildAddress_eq_specJoin, ?_, ?_⟩
  · intro r1 r2 h1 h2 h3 h4
    simp only [buildAddress, h1, h2, h3, h4]
  · intro r h1 h2 h3 h4
    have hempty : buildAddress r = "" := by
      simp [buildAddress, h1, h2, h3, h4, String.intercalate]
    exact ⟨hempty, fun pf fetch cache => by simp [resolveStoreRecord, hempty]⟩

/-- Claim C8 exercised on a mixed record (region not a string): only the
three retained fields appear, in order, with no separator left behind for
the dropped one. -/
theorem c8_address_normalizer_spec_witness :
    buildAddress wRawPersisted = "12 Main St, Accra, Ghana" := by
  have h := c8_address_normalizer_spec.1 wRawPersisted
  exact h.trans (by decide)

/-- The threshold test is invariant under forgetting the cluster id. -/
theorem withinThreshold_toSpec (c : Cluster) (p : ProjectedPin) (t : ℚ) :
    specWithin c.toSpec p t = withinThreshold c p t := rfl

/-- Merging commutes with forgetting the cluster id. -/
theorem mergePin_toSpec (c : Cluster) (p : ProjectedPin) :
    (mergePin c p).toSpec = specMerge c.toSpec p := rfl

/-- The in-place first-match update of the implementation corresponds to
the spec's find-first-index-and-set. -/
theorem updateFirstCluster_toSpec (t : ℚ) (p : ProjectedPin)
    (cs : List Cluster) :
    (updateFirstCluster t p cs).map (List.map Cluster.toSpec) =
      (specFirstMatch t p (cs.map Cluster.toSpec)).map
        (fun i => (cs.map Cluster.toSpec).set i
          (specMerge ((cs.map Cluster.toSpec).getD i default) p)) := by
  induction cs with
  | nil => rfl
  | cons c rest ih =>
    by_cases h : withinThreshold c p t
    · simp [updateFirstCluster, specFirstMatch, withinThreshold_toSpec, h,
        mergePin_toSpec]
    · rcases hu : updateFirstCluster t p rest with _ | cs'
      · rw [hu] at ih
        rcases hs : specFirstMatch t p (rest.map Cluster.toSpec) with _ | i
        · simp [updateFirstCluster, specFirstMatch, withinThreshold_toSpec, h,
            hu, hs]
        · rw [hs] at ih
          simp at ih
      · rw [hu] at ih
        rcases hs : specFirstMatch t p (rest.map Cluster.toSpec) with _ | i
        · rw [hs] at ih
          simp at ih
        · rw [hs] at ih
          simp only [Option.map_some', Option.some.injEq] at ih
          simp [updateFirstCluster, specFirstMatch, withinThreshold_toSpec, h,
            hu, hs, ih]

/-- One step of `clusterPins` corresponds to one step of the spec's pass. -/
theorem addPin_toSpec (t : ℚ) (cs : List Cluster) (p : ProjectedPin) :
    (addPin t cs p).map Cluster.toSpec = specStep t (cs.map Cluster.toSpec) p := by
  have key := updateFirstCluster_toSpec t p cs
  unfold addPin specStep
  rcases hu : updateFirstCluster t p cs with _ | cs'
  · rw [hu] at key
    rcases hs : specFirstMatch t p (cs.map Cluster.toSpec) with _ | i
    · simp [Cluster.toSpec]
    · rw [hs] at key
      simp at key
  · rw [hu] at key
    rcases hs : specFirstMatch t p (cs.map Cluster.toSpec) with _ | i
    · rw [hs] at key
      simp at key
    · rw [hs] at key
      simpa using key

/-- The whole fold corresponds, from any starting cluster list. -/
theorem foldl_addPin_toSpec (t : ℚ) (pins : List ProjectedPin)
    (cs : List Cluster) :
    (pins.foldl (addPin t) cs).map Cluster.toSpec =
      pins.foldl (specStep t) (cs.map Cluster.toSpec) := by
  induction pins generalizing cs with
  | nil => rfl
  | cons p ps ih =>
    simp only [List.foldl_cons]
    rw [ih, addPin_toSpec]

/-- Claim C5: `clusterPins` implements the spec's single forward greedy
pass — same clusters (centroids and member lists, the ids aside), in
cluster-creation order, with the running-mean centroid update and
first-match merge; the empty input yields no clusters and a single point
yields one singleton cluster at its own coordinates. -/
theorem c5_clusterPins_matches_spec (pins : List ProjectedPin) (t : ℚ) :
    (clusterPins pins t).map Cluster.toSpec = specClusterPins pins t ∧
      clusterPins [] t = [] ∧
      ∀ p : ProjectedPin,
        clusterPins [p] t = [⟨"cluster-0-" ++ p.store.id, p.x, p.y, [p]⟩] := by
  refine ⟨foldl_addPin_toSpec t pins [], rfl, fun p => ?_⟩
  rfl

/-- Claim C6: three points at (10,10), (11,11), (50,50) with threshold 4
cluster into exactly two clusters: the first holds points 1 and 2 with
centroid (10.5, 10.5), the second is a singleton holding point 3. -/
theorem c6_three_point_example :
    clusterPins [wPinA, wPinB, wPinC] 4 =
      [⟨"cluster-0-s1", 21/2, 21/2, [wPinA, wPinB]⟩,
        ⟨"cluster-1-s3", 50, 50, [wPinC]⟩] := by
  norm_num [clusterPins, addPin, updateFirstCluster, withinThreshold, mergePin,
    wPinA, wPinB, wPinC, wStoreA, wStoreB, wStoreC]
  exact ⟨by decide, by decide⟩

/-- Members of an in-place first-match update: the same pins plus the new
one. -/
theorem updateFirstCluster_members_perm (t : ℚ) (p : ProjectedPin)
    (cs cs' : List Cluster) (h : updateFirstCluster t p cs = some cs') :
    (cs'.flatMap Cluster.pins).Perm (cs.flatMap Cluster.pins ++ [p]) := by
  induction cs generalizing cs' with
  | nil => simp [updateFirstCluster] at h
  | cons c rest ih =>
    by_cases hw : withinThreshold c p t
    · simp only [updateFirstCluster, hw, if_true, Option.some.injEq] at h
      subst h
      simp only [List.flatMap_cons, mergePin, List.append_assoc]
      exact List.Perm.append_left c.pins
        (by simpa using (List.perm_append_singleton p
          (rest.flatMap Cluster.pins)).symm)
    · simp only [updateFirstCluster, hw, if_false, Option.map_eq_some',
        Bool.false_eq_true] at h
      rcases h with ⟨cs'', hu, rfl⟩
      simp only [List.flatMap_cons, List.append_assoc]
      exact List.Perm.append_left c.pins (ih cs'' hu)

/-- Members after one `addPin` step: the same pins plus the new one. -/
theorem addPin_members_perm (t : ℚ) (cs : List Cluster) (p : ProjectedPin) :
    ((addPin t cs p).flatMap Cluster.pins).Perm
      (cs.flatMap Cluster.pins ++ [p]) := by
  unfold addPin
  rcases hu : updateFirstCluster t p cs with _ | cs'
  · simp [List.flatMap_append]
  · exact updateFirstCluster_members_perm t p cs cs' hu

/-- Members of the whole fold: the starting members plus all folded pins. -/
theorem foldl_addPin_members_perm (t : ℚ) (pins : List ProjectedPin)
    (cs : List Cluster) :
    ((pins.foldl (addPin t) cs).flatMap Cluster.pins).Perm
      (cs.flatMap Cluster.pins ++ pins) := by
  induction pins generalizing cs with
  | nil => simp
  | cons p ps ih =>
    simp only [List.foldl_cons]
    have h3 := (ih (addPin t cs p)).trans
      ((addPin_members_perm t cs p).append_right ps)
    simpa [List.append_assoc] using h3

/-- Claim C9: the clusters returned by `clusterPins` partition the input —
the concatenation of all member lists is a permutation of the input
sequence (each input point occurs in exactly one member list, with
multiplicity), and the member counts sum to the input length. -/
theorem c9_clusters_partition_input (pins : List ProjectedPin) (t : ℚ) :
    ((clusterPins pins t).flatMap Cluster.pins).Perm pins ∧
      ((clusterPins pins t).map (fun c => c.pins.length)).sum = pins.length := by
  have h := foldl_addPin_members_perm t pins []
  simp only [List.flatMap_nil, List.nil_append] at h
  refine ⟨h, ?_⟩
  have hlen := h.length_eq
  rw [List.length_flatMap] at hlen
  simpa [Function.comp] using hlen

/-- Every entry of the `StoreMap` pin list passed the filter: its store has
a truthy formatted location and finite coordinates. -/
theorem storeMapPins_mem (stores : List StoreRecord) (p : ProjectedPin)
    (hp : p ∈ storeMapPins stores) :
    formatLocation p.store ≠ "" ∧ hasCoordinates p.store = true := by
  unfold storeMapPins at hp
  rcases List.mem_map.1 hp with ⟨e, he, hep⟩
  rcases List.mem_filter.1 he with ⟨he', hcond⟩
  rcases List.mem_map.1 he' with ⟨s, _, hse⟩
  have hstore : p.store = e.1 := by rw [← hep]
  have hloc : e.2 = formatLocation e.1 := by rw [← hse]
  simp only [Bool.and_eq_true, bne_iff_ne, ne_eq] at hcond
  refine ⟨?_, hstore ▸ hcond.2⟩
  rw [hstore, ← hloc]
  exact hcond.1

/-- An `emptyOrMissing` field is `null` or the empty string. -/
theorem emptyOrMissing_cases (o : Option String) (h : emptyOrMissing o = true) :
    o = none ∨ o = some "" := by
  rcases o with _ | v
  · exact Or.inl rfl
  · right
    simp only [emptyOrMissing, beq_iff_eq] at h
    rw [h]

/-- A record whose address fields are all empty or missing formats to the
empty location string. -/
theorem formatLocation_empty (s : StoreRecord) (h : locationEmpty s = true) :
    formatLocation s = "" := by
  simp only [locationEmpty, Bool.and_eq_true] at h
  obtain ⟨⟨⟨h1, h2⟩, h3⟩, h4⟩ := h
  rcases emptyOrMissing_cases _ h1 with h1 | h1 <;>
    rcases emptyOrMissing_cases _ h2 with h2 | h2 <;>
      rcases emptyOrMissing_cases _ h3 with h3 | h3 <;>
        rcases emptyOrMissing_cases _ h4 with h4 | h4 <;>
          simp [formatLocation, h1, h2, h3, h4, String.intercalate]

/-- Claim C10: a record with finite coordinates but with all address
fields empty or missing contributes no pin and no cluster to the map, and
in general `StoreMap` admits a record into the pin list only with a truthy
formatted location and finite coordinates. -/
theorem c10_no_location_no_pin (stores : List StoreRecord) (s : StoreRecord)
    (_hc : hasCoordinates s = true) (hl : locationEmpty s = true) :
    s ∉ (storeMapPins stores).map (fun p => p.store) ∧
      s ∉ ((storeMapClusters stores).flatMap Cluster.pins).map
        (fun p => p.store) ∧
      ∀ p ∈ storeMapPins stores,
        formatLocation p.store ≠ "" ∧ hasCoordinates p.store = true := by
  have hempty := formatLocation_empty s hl
  have hnotpin : s ∉ (storeMapPins stores).map (fun p => p.store) := by
    intro hmem
    rcases List.mem_map.1 hmem with ⟨p, hp, hps⟩
    exact (storeMapPins_mem stores p hp).1 (by rw [hps]; exact hempty)
  refine ⟨hnotpin, ?_, fun p hp => storeMapPins_mem stores p hp⟩
  intro hmem
  rcases List.mem_map.1 hmem with ⟨p, hp, hps⟩
  have hperm := foldl_addPin_members_perm 4 (storeMapPins stores) []
  simp only [List.flatMap_nil, List.nil_append] at hperm
  have hp' : p ∈ storeMapPins stores := by
    have hmem' : p ∈ (storeMapClusters stores).flatMap Cluster.pins := hp
    exact hperm.mem_iff.1 hmem'
  exact (storeMapPins_mem stores p hp').1 (by rw [hps]; exact hempty)

/-- Claim C10 exercised: a record at finite (10, 20) with no address
fields is absent from the pin list built over a two-record listing. -/
theorem c10_no_location_no_pin_witness :
    decide (wStoreNoLocation ∈
      (storeMapPins [wStoreNoLocation, wStoreA]).map (fun p => p.store))
      = false := by
  have h := c10_no_location_no_pin [wStoreNoLocation, wStoreA]
    wStoreNoLocation (by decide) (by decide)
  exact decide_eq_false_iff_not.mpr h.1

end SedifexStores
